/-
Verification of the shorter-url backend (FastAPI + SQLAlchemy) against its
natural-language specification.

The Python source is shallowly embedded: database rows become Lean structures,
the SQLAlchemy session becomes an explicit `DB` value threaded through the
repository and service functions, `datetime.utcnow()` becomes an explicit
`now : Nat` parameter, and raised exceptions become `Except` errors.  Every
definition mirrors one function of the source tree, named after it.
-/

import Mathlib

set_option maxHeartbeats 1000000

namespace ShortUrl

/-! ## Data model (src/backend/app/models)

`URL` (models/url.py), `User` (models/user.py), `Analytics` (models/analytics.py).
`DateTime` columns are modelled as `Nat` ticks; nullable columns as `Option`. -/

/-- Row of the `urls` table (models/url.py `URL`). -/
structure URLRec where
  id : Nat
  short_code : String
  original_url : String
  user_id : Option Nat
  created_at : Nat
  expires_at : Option Nat
  is_active : Bool
  click_count : Nat
deriving Repr, DecidableEq

/-- Row of the `users` table (models/user.py `User`). -/
structure UserRec where
  id : Nat
  email : String
  username : String
  hashed_password : List Nat
  is_active : Bool
deriving Repr, DecidableEq

/-- Row of the `analytics` table (models/analytics.py `Analytics`). -/
structure ClickEvent where
  id : Nat
  url_id : Nat
  clicked_at : Nat
  ip_address : Option String
  user_agent : Option String
  referer : Option String
deriving Repr, DecidableEq

/-- The committed database state seen through one SQLAlchemy session. -/
structure DB where
  urls : List URLRec
  users : List UserRec
  clicks : List ClickEvent
deriving Repr, DecidableEq

/-- The `unique=True` constraint on `urls.short_code`: no two rows share a code. -/
def DB.WfCodes (db : DB) : Prop :=
  db.urls.Pairwise (fun a b => a.short_code ≠ b.short_code)

/-! ## Settings (src/backend/app/config.py) -/

def settingsBASE_URL : String := "http://localhost:8000"

def settingsSHORT_CODE_LENGTH : Nat := 8

/-! ## URL repository (src/backend/app/repositories/url_repository.py) -/

/-- `url.expires_at and url.expires_at < datetime.utcnow()` — the expiration
test inside `URLRepository.get_by_short_code`. -/
def isExpired (u : URLRec) (now : Nat) : Bool :=
  match u.expires_at with
  | none => false
  | some e => e < now

/-- `URLRepository.get_by_short_code`: filter by code, filter `is_active == True`
unless `include_inactive`, take `.first()`, then return `None` when the row's
`expires_at` is strictly in the past. -/
def getByShortCode (db : DB) (now : Nat) (code : String)
    (includeInactive : Bool) : Option URLRec :=
  let q := db.urls.filter (fun u => u.short_code == code)
  let q := if includeInactive then q else q.filter (fun u => u.is_active)
  match q.head? with
  | none => none
  | some u => if isExpired u now then none else some u

/-- `URLRepository.get_by_id`: first row with the given primary key. -/
def getById (db : DB) (url_id : Nat) : Option URLRec :=
  (db.urls.filter (fun u => u.id == url_id)).head?

/-- `URLRepository.check_short_code_exists`: any row with the code, with no
active filter and no expiration check. -/
def checkShortCodeExists (db : DB) (code : String) : Bool :=
  db.urls.any (fun u => u.short_code == code)

/-- `URLRepository.increment_click_count`: load by id, add 1 to `click_count`
if found, commit. -/
def incrementClickCount (db : DB) (url_id : Nat) : DB :=
  match getById db url_id with
  | none => db
  | some _ =>
      { db with urls := db.urls.map (fun u =>
          if u.id == url_id then { u with click_count := u.click_count + 1 } else u) }

/-- `URLRepository.deactivate`: load by id, set `is_active = False` if found,
commit. -/
def repoDeactivate (db : DB) (url_id : Nat) : DB :=
  match getById db url_id with
  | none => db
  | some _ =>
      { db with urls := db.urls.map (fun u =>
          if u.id == url_id then { u with is_active := false } else u) }

/-- Insert into a list kept sorted by `created_at` descending
(`order_by(URL.created_at.desc())`). -/
def insertByCreatedDesc (u : URLRec) : List URLRec → List URLRec
  | [] => [u]
  | v :: vs =>
      if v.created_at ≤ u.created_at then u :: v :: vs
      else v :: insertByCreatedDesc u vs

/-- Sort by `created_at` descending. -/
def sortByCreatedDesc : List URLRec → List URLRec
  | [] => []
  | u :: us => insertByCreatedDesc u (sortByCreatedDesc us)

/-- `URLRepository.list_urls`: filter by owner when given, filter
`is_active == True` unless `include_inactive`, count the filtered query,
then order by `created_at` descending, offset `(page-1)*page_size` and
limit `page_size`.  Returns `(rows, total)`. -/
def repoListUrls (db : DB) (page pageSize : Nat) (includeInactive : Bool)
    (userId : Option Nat) : List URLRec × Nat :=
  let q := match userId with
    | none => db.urls
    | some uid => db.urls.filter (fun u => u.user_id == some uid)
  let q := if includeInactive then q else q.filter (fun u => u.is_active)
  let total := q.length
  let offset := (page - 1) * pageSize
  (((sortByCreatedDesc q).drop offset).take pageSize, total)

/-! ## Errors (src/backend/app/core/exceptions.py)

`URLNotFoundError` and `ShortCodeGenerationError` carry their message; both
raise sites of `ShortCodeGenerationError` in `create_short_url` are kept
apart by their distinct messages (the spec calls them `CodeConflict` and
`AllocationExhausted`). -/

inductive UrlErr where
  /-- `URLNotFoundError` (HTTP 404 at the routes). -/
  | notFound (msg : String)
  /-- `ShortCodeGenerationError` raised for a taken custom code (HTTP 409). -/
  | codeConflict (msg : String)
  /-- `ShortCodeGenerationError` raised when 10 generated codes collide (HTTP 409). -/
  | allocationExhausted (msg : String)
  /-- `DatabaseError` raised when a repository commit fails. -/
  | databaseError (msg : String)
deriving Repr, DecidableEq

/-! ## URL service (src/backend/app/services/url_service.py) -/

/-- The full row view assembled by `URLService.get_url_stats` (its
`total_clicks` field) and by `create_short_url`/`list_urls` (`click_count`). -/
structure URLView where
  id : Nat
  short_code : String
  original_url : String
  short_url : String
  created_at : Nat
  expires_at : Option Nat
  is_active : Bool
  click_count : Nat
deriving Repr, DecidableEq

def viewOf (u : URLRec) : URLView :=
  { id := u.id
    short_code := u.short_code
    original_url := u.original_url
    short_url := settingsBASE_URL ++ "/" ++ u.short_code
    created_at := u.created_at
    expires_at := u.expires_at
    is_active := u.is_active
    click_count := u.click_count }

/-- `URLService.get_url_stats`: look up with `include_inactive=True`, raise
`URLNotFoundError` on `None`, otherwise return the full stats view. -/
def getUrlStats (db : DB) (now : Nat) (code : String) : Except UrlErr URLView :=
  match getByShortCode db now code true with
  | none => .error (.notFound ("Short code '" ++ code ++ "' not found"))
  | some u => .ok (viewOf u)

/-- `URLService.get_original_url`: active-only lookup, raise on `None`. -/
def getOriginalUrl (db : DB) (now : Nat) (code : String) : Except UrlErr String :=
  match getByShortCode db now code false with
  | none => .error (.notFound ("Short code '" ++ code ++ "' not found or expired"))
  | some u => .ok u.original_url

/-- `URLService.deactivate_url`: look up with `include_inactive=True`, raise
`URLNotFoundError` on `None`, else `repository.deactivate(url.id)`. -/
def deactivateUrl (db : DB) (now : Nat) (code : String) : Except UrlErr DB :=
  match getByShortCode db now code true with
  | none => .error (.notFound ("Short code '" ++ code ++ "' not found"))
  | some u => .ok (repoDeactivate db u.id)

/-- Paginated listing assembled by `URLService.list_urls` (always called with
the repository default `include_inactive=False`). -/
structure URLListPage where
  urls : List URLView
  total : Nat
  page : Nat
  page_size : Nat
  total_pages : Nat
deriving Repr, DecidableEq

/-- `URLService.list_urls`. -/
def serviceListUrls (db : DB) (page pageSize : Nat) (user : Option UserRec) :
    URLListPage :=
  let userId := user.map (fun u => u.id)
  let (urls, total) := repoListUrls db page pageSize false userId
  let totalPages := if total > 0 then (total + pageSize - 1) / pageSize else 0
  { urls := urls.map viewOf
    total := total
    page := page
    page_size := pageSize
    total_pages := totalPages }

/-! ## Short-code generation (src/backend/app/core/security.py) -/

/-- `string.ascii_letters + string.digits`: the 62-character alphabet
`generate_short_code` draws from. -/
def shortCodeAlphabet : List Char :=
  "abcdefghijklmnopqrstuvwxyzABCDEFGHIJKLMNOPQRSTUVWXYZ0123456789".toList

/-- `generate_short_code(length)`: `length` independent draws from the
alphabet, one `secrets.choice` per position, modelled by the entropy
source `pick`. -/
def generateShortCode (length : Nat) (pick : Nat → Fin shortCodeAlphabet.length) :
    String :=
  String.mk ((List.range length).map (fun i => shortCodeAlphabet.get (pick i)))

/-- `generate_short_code()` with `length=None` falls back to
`settings.SHORT_CODE_LENGTH`. -/
def generateShortCodeDefault (pick : Nat → Fin shortCodeAlphabet.length) : String :=
  generateShortCode settingsSHORT_CODE_LENGTH pick

/-! ## Code allocation in `URLService.create_short_url`
(src/backend/app/services/url_service.py, the "Determine short code" block).

The `for _ in range(max_attempts): ... else: raise` loop is embedded with the
remaining attempt count as fuel; `draws i` is the code returned by the fresh
`generate_short_code()` call of attempt `i`. -/

def allocTry (db : DB) (draws : Nat → String) : Nat → Nat → Except UrlErr String
  | _, 0 => .error (.allocationExhausted "Failed to generate unique short code")
  | i, fuel + 1 =>
      if checkShortCodeExists db (draws i) then allocTry db draws (i + 1) fuel
      else .ok (draws i)

/-- The code-determination block of `URLService.create_short_url`:
`if custom_code:` (Python truthiness, so `Some ""` falls through to the
random branch) check the conflict with no retry; otherwise draw up to
`max_attempts = 10` fresh codes. -/
def allocateCode (db : DB) (custom : Option String) (draws : Nat → String) :
    Except UrlErr String :=
  match custom with
  | some c =>
      if c ≠ "" then
        if checkShortCodeExists db c then
          .error (.codeConflict ("Short code '" ++ c ++ "' already exists"))
        else .ok c
      else allocTry db draws 0 10
  | none => allocTry db draws 0 10

/-! ## Analytics (src/backend/app/repositories/analytics_repository.py and
src/backend/app/services/analytics_service.py)

Each repository method runs `try: ...; self.db.commit() except: rollback; raise
DatabaseError`.  The two methods called by `track_click` commit separately, so
each carries its own `commitOk` flag: `false` means that method's commit fails,
its transaction is rolled back, and `DatabaseError` is raised. -/

structure RequestMeta where
  ip_address : Option String
  user_agent : Option String
  referer : Option String
deriving Repr, DecidableEq

/-- `AnalyticsRepository.create`: insert one `Analytics` row and commit. -/
def analyticsCreate (db : DB) (now : Nat) (url_id : Nat) (meta : RequestMeta)
    (commitOk : Bool) : Except UrlErr DB :=
  if commitOk then
    .ok { db with clicks := db.clicks ++
      [{ id := db.clicks.length
         url_id := url_id
         clicked_at := now
         ip_address := meta.ip_address
         user_agent := meta.user_agent
         referer := meta.referer }] }
  else .error (.databaseError "Failed to create analytics record")

/-- `URLRepository.increment_click_count` with its own commit outcome. -/
def incrementClickCountTx (db : DB) (url_id : Nat) (commitOk : Bool) :
    Except UrlErr DB :=
  match getById db url_id with
  | none => .ok db
  | some _ =>
      if commitOk then .ok (incrementClickCount db url_id)
      else .error (.databaseError "Failed to increment click count")

/-- `AnalyticsService.track_click`: active-only lookup, then
`analytics_repository.create` (first commit), then
`url_repository.increment_click_count` (second commit).  Returns the outcome
together with the state committed so far — on a failure of the second commit
the first one has already been made durable. -/
def trackClick (db : DB) (now : Nat) (code : String) (meta : RequestMeta)
    (insertOk incrOk : Bool) : Except UrlErr Unit × DB :=
  match getByShortCode db now code false with
  | none => (.error (.notFound ("Short code '" ++ code ++ "' not found or expired")), db)
  | some url =>
      match analyticsCreate db now url.id meta insertOk with
      | .error e => (.error e, db)
      | .ok db1 =>
          match incrementClickCountTx db1 url.id incrOk with
          | .error e => (.error e, db1)
          | .ok db2 => (.ok (), db2)

/-- Insert into a list kept sorted by `clicked_at` descending. -/
def insertByClickedDesc (c : ClickEvent) : List ClickEvent → List ClickEvent
  | [] => [c]
  | v :: vs =>
      if v.clicked_at ≤ c.clicked_at then c :: v :: vs
      else v :: insertByClickedDesc c vs

def sortByClickedDesc : List ClickEvent → List ClickEvent
  | [] => []
  | c :: cs => insertByClickedDesc c (sortByClickedDesc cs)

/-- `AnalyticsRepository.get_by_url_id`: filter by `url_id`, order by
`clicked_at` descending, apply the limit when truthy. -/
def analyticsGetByUrlId (db : DB) (url_id : Nat) (limit : Option Nat) :
    List ClickEvent :=
  let rows := sortByClickedDesc (db.clicks.filter (fun c => c.url_id == url_id))
  match limit with
  | none => rows
  | some n => if n ≠ 0 then rows.take n else rows

/-- `AnalyticsRepository.get_unique_ip_count`: `COUNT(DISTINCT ip_address)`
(SQL distinct counts ignore NULLs). -/
def uniqueIpCount (db : DB) (url_id : Nat) : Nat :=
  (((db.clicks.filter (fun c => c.url_id == url_id)).filterMap
      (fun c => c.ip_address)).dedup).length

/-- Summary view assembled by `AnalyticsService.get_analytics_summary`
(the date/hour/referer groupings are carried as the underlying event list). -/
structure AnalyticsSummary where
  total_clicks : Nat
  unique_ips : Nat
deriving Repr, DecidableEq

/-- `AnalyticsService.get_analytics_summary`: lookup with
`include_inactive=True`, raise on `None`, else aggregate. -/
def getAnalyticsSummary (db : DB) (now : Nat) (code : String) :
    Except UrlErr AnalyticsSummary :=
  match getByShortCode db now code true with
  | none => .error (.notFound ("Short code '" ++ code ++ "' not found"))
  | some url => .ok { total_clicks := url.click_count
                      unique_ips := uniqueIpCount db url.id }

/-- `AnalyticsService.get_recent_clicks`. -/
def getRecentClicks (db : DB) (now : Nat) (code : String) (limit : Nat) :
    Except UrlErr (List ClickEvent) :=
  match getByShortCode db now code true with
  | none => .error (.notFound ("Short code '" ++ code ++ "' not found"))
  | some url => .ok (analyticsGetByUrlId db url.id (some limit))

/-! ## Redirect entry point (src/backend/app/main.py `redirect_to_url`) -/

def RESERVED_PATHS : List String :=
  ["docs", "redoc", "openapi.json", "api", "health", "robots.txt",
   "favicon.ico", "static", "assets"]

inductive RedirectResult where
  /-- `RedirectResponse(..., 302)`. -/
  | found (location : String)
  /-- `HTTPException 404`. -/
  | notFound (detail : String)
  /-- an uncaught `DatabaseError` escaping the handler. -/
  | serverError (msg : String)
deriving Repr, DecidableEq

/-- `redirect_to_url`: reserved-path check, active-only lookup, `track_click`,
then the 302.  Only `URLNotFoundError` is caught.  Returns the response and
the committed state. -/
def redirectToUrl (db : DB) (now : Nat) (code : String) (meta : RequestMeta)
    (insertOk incrOk : Bool) : RedirectResult × DB :=
  if RESERVED_PATHS.contains code.toLower then
    (.notFound ("Path '/" ++ code ++ "' is reserved and cannot be used as a short code"), db)
  else
    match getByShortCode db now code false with
    | none =>
        (.notFound ("Short code '" ++ code ++ "' not found or expired"), db)
    | some url =>
        match trackClick db now code meta insertOk incrOk with
        | (.ok _, db2) => (.found url.original_url, db2)
        | (.error (.notFound _), dbx) =>
            (.notFound ("Short code '" ++ code ++ "' not found or expired"), dbx)
        | (.error e, dbx) => (.serverError (toString (repr e)), dbx)

/-! ## Authorized routes (src/backend/app/api/routes/urls.py `deactivate_url`,
src/backend/app/api/routes/analytics.py `get_analytics_summary`,
`get_recent_clicks`) -/

inductive RouteErr where
  | http (status : Nat) (detail : String)
deriving Repr, DecidableEq

/-- Route `DELETE /urls/{short_code}` (`deactivate_url`): optional
authentication; ownership is enforced only when `url.user_id` is truthy
(`if url.user_id and (not current_user or url.user_id != current_user.id)`). -/
def routeDeactivateUrl (db : DB) (now : Nat) (code : String)
    (currentUser : Option UserRec) : Except RouteErr DB :=
  match getByShortCode db now code true with
  | none => .error (.http 404 ("Short code '" ++ code ++ "' not found"))
  | some url =>
      let forbidden :=
        match url.user_id with
        | none => false
        | some uid =>
            match currentUser with
            | none => true
            | some cu => uid != cu.id
      if forbidden then
        .error (.http 403 "You don't have permission to deactivate this URL")
      else
        match deactivateUrl db now code with
        | .ok db' => .ok db'
        | .error (.notFound m) => .error (.http 404 m)
        | .error _ => .error (.http 500 "unreachable")

/-- Ownership gate shared by both analytics routes:
`if not url.user_id or url.user_id != current_user.id` → 403. -/
def analyticsForbidden (url : URLRec) (cu : UserRec) : Bool :=
  match url.user_id with
  | none => true
  | some uid => uid != cu.id

/-- Route `GET /analytics/{short_code}/summary` (mandatory authentication). -/
def routeAnalyticsSummary (db : DB) (now : Nat) (code : String)
    (currentUser : UserRec) : Except RouteErr AnalyticsSummary :=
  match getByShortCode db now code true with
  | none => .error (.http 404 ("Short code '" ++ code ++ "' not found"))
  | some url =>
      if analyticsForbidden url currentUser then
        .error (.http 403 "You don't have permission to view analytics for this URL")
      else
        match getAnalyticsSummary db now code with
        | .ok s => .ok s
        | .error (.notFound m) => .error (.http 404 m)
        | .error _ => .error (.http 500 "unreachable")

/-- Route `GET /analytics/{short_code}/clicks` (mandatory authentication). -/
def routeRecentClicks (db : DB) (now : Nat) (code : String)
    (currentUser : UserRec) (limit : Nat) : Except RouteErr (List ClickEvent) :=
  if limit < 1 ∨ limit > 500 then
    .error (.http 400 "Limit must be between 1 and 500")
  else
    match getByShortCode db now code true with
    | none => .error (.http 404 ("Short code '" ++ code ++ "' not found"))
    | some url =>
        if analyticsForbidden url currentUser then
          .error (.http 403 "You don't have permission to view analytics for this URL")
        else
          match getRecentClicks db now code limit with
          | .ok cs => .ok cs
          | .error (.notFound m) => .error (.http 404 m)
          | .error _ => .error (.http 500 "unreachable")

/-! ## User deletion semantics (src/backend/app/models)

The repository itself has no user-deletion endpoint; the two declarations on
the models define two different deletion semantics. -/

/-- Deleting a `User` through the ORM session: `User.urls` declares
`cascade="all, delete-orphan"` (models/user.py), so the session deletes every
owned `URL` row together with the user row. -/
def ormDeleteUser (db : DB) (uid : Nat) : DB :=
  { db with
      users := db.users.filter (fun u => u.id ≠ uid)
      urls := db.urls.filter (fun u => u.user_id ≠ some uid) }

/-- Deleting a `users` row at the database level: the foreign key
`urls.user_id` declares `ondelete="SET NULL"` (models/url.py), so owned
`URL` rows survive with a nulled owner reference. -/
def sqlDeleteUser (db : DB) (uid : Nat) : DB :=
  { db with
      users := db.users.filter (fun u => u.id ≠ uid)
      urls := db.urls.map (fun u =>
        if u.user_id == some uid then { u with user_id := none } else u) }

/-! ## Passwords (src/backend/app/core/auth.py)

Passwords are modelled as lists of Unicode code points; `.encode('utf-8')`
and `.decode('utf-8', errors='ignore')` are embedded as `utf8Encode` and
`utf8DecodeIgnore` over byte lists.  bcrypt itself is external, so the hash
primitive is a parameter `hashFn`; `pwd_context.verify` succeeds exactly on
the password the stored hash was computed from. -/

/-- UTF-8 encoding of one code point. -/
def charBytes (c : Nat) : List Nat :=
  if c < 0x80 then [c]
  else if c < 0x800 then [0xC0 + c / 64, 0x80 + c % 64]
  else if c < 0x10000 then [0xE0 + c / 4096, 0x80 + c / 64 % 64, 0x80 + c % 64]
  else [0xF0 + c / 262144, 0x80 + c / 4096 % 64, 0x80 + c / 64 % 64, 0x80 + c % 64]

/-- `str.encode('utf-8')`. -/
def utf8Encode (p : List Nat) : List Nat :=
  (p.map charBytes).flatten

/-- A UTF-8 continuation byte `10xxxxxx`. -/
def isCont (b : Nat) : Bool :=
  decide (0x80 ≤ b) && decide (b < 0xC0)

/-- One-pass UTF-8 decoder with fuel (the decoder consumes at least one byte
per step, so fuel `bs.length` is always enough).  Well-formed sequences are
decoded; bytes that do not start a valid sequence are dropped. -/
def utf8DecodeIgnoreF : Nat → List Nat → List Nat
  | 0, _ => []
  | _, [] => []
  | fuel + 1, b :: bs =>
    if b < 0x80 then b :: utf8DecodeIgnoreF fuel bs
    else if 0xC2 ≤ b ∧ b < 0xE0 then
      match bs with
      | [] => []
      | b1 :: bs1 =>
        if isCont b1 then
          ((b - 0xC0) * 64 + (b1 - 0x80)) :: utf8DecodeIgnoreF fuel bs1
        else utf8DecodeIgnoreF fuel bs
    else if 0xE0 ≤ b ∧ b < 0xF0 then
      match bs with
      | b1 :: b2 :: bs2 =>
        if isCont b1 && isCont b2 &&
            decide (0x800 ≤ (b - 0xE0) * 4096 + (b1 - 0x80) * 64 + (b2 - 0x80)) &&
            (decide ((b - 0xE0) * 4096 + (b1 - 0x80) * 64 + (b2 - 0x80) < 0xD800) ||
             decide (0xDFFF < (b - 0xE0) * 4096 + (b1 - 0x80) * 64 + (b2 - 0x80))) then
          ((b - 0xE0) * 4096 + (b1 - 0x80) * 64 + (b2 - 0x80)) :: utf8DecodeIgnoreF fuel bs2
        else utf8DecodeIgnoreF fuel bs
      | _ => utf8DecodeIgnoreF fuel bs
    else if 0xF0 ≤ b ∧ b < 0xF5 then
      match bs with
      | b1 :: b2 :: b3 :: bs3 =>
        if isCont b1 && isCont b2 && isCont b3 &&
            decide (0x10000 ≤ (b - 0xF0) * 262144 + (b1 - 0x80) * 4096 + (b2 - 0x80) * 64 + (b3 - 0x80)) &&
            decide ((b - 0xF0) * 262144 + (b1 - 0x80) * 4096 + (b2 - 0x80) * 64 + (b3 - 0x80) < 0x110000) then
          ((b - 0xF0) * 262144 + (b1 - 0x80) * 4096 + (b2 - 0x80) * 64 + (b3 - 0x80)) ::
            utf8DecodeIgnoreF fuel bs3
        else utf8DecodeIgnoreF fuel bs
      | _ => utf8DecodeIgnoreF fuel bs
    else utf8DecodeIgnoreF fuel bs

/-- `bytes.decode('utf-8', errors='ignore')`. -/
def utf8DecodeIgnore (bs : List Nat) : List Nat :=
  utf8DecodeIgnoreF bs.length bs

/-- The truncation block inside `get_password_hash`:
`password_bytes = password.encode('utf-8'); if len(password_bytes) > 72:
password = password_bytes[:72].decode('utf-8', errors='ignore')`. -/
def hashTruncate (p : List Nat) : List Nat :=
  if 72 < (utf8Encode p).length then utf8DecodeIgnore ((utf8Encode p).take 72)
  else p

/-- The identical truncation block inside `authenticate_user`. -/
def authTruncate (p : List Nat) : List Nat :=
  if 72 < (utf8Encode p).length then utf8DecodeIgnore ((utf8Encode p).take 72)
  else p

/-- `get_password_hash`: truncate, then hash with the bcrypt primitive. -/
def getPasswordHash (hashFn : List Nat → List Nat) (p : List Nat) : List Nat :=
  hashFn (hashTruncate p)

/-- `verify_password` via `pwd_context.verify`: succeeds exactly when the
stored hash was computed from the given plaintext. -/
def verifyPassword (hashFn : List Nat → List Nat) (p : List Nat)
    (hashed : List Nat) : Bool :=
  hashFn p == hashed

/-- `get_user_by_username` (auth.py). -/
def getUserByUsername (db : DB) (username : String) : Option UserRec :=
  (db.users.filter (fun u => u.username == username)).head?

/-- `authenticate_user`: username lookup, the 72-byte truncation, password
verification, then the `is_active` check. -/
def authenticateUser (hashFn : List Nat → List Nat) (db : DB)
    (username : String) (p : List Nat) : Option UserRec :=
  match getUserByUsername db username with
  | none => none
  | some user =>
      let p' := authTruncate p
      if verifyPassword hashFn p' user.hashed_password then
        if user.is_active then some user else none
      else none

/-- `AuthService.register_user` (auth_service.py): uniqueness checks, hash via
`get_password_hash`, insert the user row (`is_active` defaults to `True`;
`newId` is the fresh primary key). -/
def registerUser (hashFn : List Nat → List Nat) (db : DB) (newId : Nat)
    (email username : String) (p : List Nat) : Except String DB :=
  if ((db.users.filter (fun u => u.email == email)).head?).isSome then
    .error "Email already registered"
  else if ((db.users.filter (fun u => u.username == username)).head?).isSome then
    .error "Username already taken"
  else .ok { db with users := db.users ++
    [{ id := newId
       email := email
       username := username
       hashed_password := getPasswordHash hashFn p
       is_active := true }] }

/-! ## Token verification (src/backend/app/core/auth.py `get_current_user`,
`get_current_user_optional`)

`jwt.decode(token, SECRET_KEY, ["HS256"])` (signature and expiry checks
inside python-jose) is the parameter `decode`; `None` is a raised `JWTError`.
For the mandatory mode, `none` models raising `credentials_exception`
(HTTP 401). -/

structure JWTPayload where
  /-- `payload.get("sub")`. -/
  sub : Option String
deriving Repr, DecidableEq

/-- `db.query(User).filter(User.id == user_id).first()` with the id obtained
from `int(user_id_str)`. -/
def findUserById (db : DB) (i : Int) : Option UserRec :=
  (db.users.filter (fun u => (u.id : Int) == i)).head?

def pyIntDigits (l : List Char) : Option Nat :=
  l.foldl (fun a c =>
    match a, (if c.isDigit then some (c.toNat - 48) else none) with
    | some n, some d => some (n * 10 + d)
    | _, _ => none) (some 0)

/-- Python `int(user_id_str)` as used on the decoded `sub` claim: an optional
sign followed by decimal digits; anything else raises `ValueError` (`none`).
Both verification modes call the identical `int(...)`. -/
def pyInt (s : String) : Option Int :=
  match s.toList with
  | [] => none
  | c :: rest =>
      if c = '-' then
        if rest = [] then none
        else (pyIntDigits rest).map (fun n => -(n : Int))
      else if c = '+' then
        if rest = [] then none
        else (pyIntDigits rest).map (fun n => (n : Int))
      else (pyIntDigits (c :: rest)).map (fun n => (n : Int))

/-- The body of `get_current_user` from `jwt.decode` on: sub present,
`int(...)` parse, user lookup, `is_active` check. -/
def getCurrentUserCore (decode : String → Option JWTPayload) (db : DB)
    (token : String) : Option UserRec :=
  match decode token with
  | none => none
  | some payload =>
      match payload.sub with
      | none => none
      | some s =>
          match pyInt s with
          | none => none
          | some uid =>
              match findUserById db uid with
              | none => none
              | some user => if user.is_active then some user else none

/-- The body of `get_current_user_optional` from `jwt.decode` on: it tests
`if not user_id_str` (so the empty string short-circuits before `int(...)`),
then parses, looks up, and requires `is_active`. -/
def getCurrentUserOptionalCore (decode : String → Option JWTPayload) (db : DB)
    (token : String) : Option UserRec :=
  match decode token with
  | none => none
  | some payload =>
      match payload.sub with
      | none => none
      | some s =>
          if s = "" then none
          else
            match pyInt s with
            | none => none
            | some uid =>
                match findUserById db uid with
                | none => none
                | some user => if user.is_active then some user else none

def bearerChars : List Char := "Bearer ".toList

/-- `authorization.replace("Bearer ", "")`: Python `str.replace` removes every
occurrence of the pattern. -/
def stripBearerAll (s : List Char) : List Char :=
  if h : bearerChars.isPrefixOf s then stripBearerAll (s.drop 7)
  else
    match s with
    | [] => []
    | c :: cs => c :: stripBearerAll cs
termination_by s.length
decreasing_by
  · have hp : bearerChars <+: s := List.isPrefixOf_iff_prefix.mp h
    have := hp.length_le
    simp only [List.length_drop]
    simp [bearerChars] at this
    omega
  · simp

/-- Python `str.strip()`. -/
def pyStrip (s : List Char) : List Char :=
  ((s.dropWhile Char.isWhitespace).reverse.dropWhile Char.isWhitespace).reverse

/-- `get_current_user`'s manual header handling: header present, exact
`"Bearer "` prefix, `replace`+`strip`, non-empty token, then the core. -/
def getCurrentUser (decode : String → Option JWTPayload) (db : DB)
    (authorization : Option String) : Option UserRec :=
  match authorization with
  | none => none
  | some h =>
      if bearerChars.isPrefixOf h.toList then
        let token := pyStrip (stripBearerAll h.toList)
        if token = [] then none
        else getCurrentUserCore decode db (String.mk token)
      else none

/-- `get_current_user_optional`'s token extraction through
`OAuth2PasswordBearer(auto_error=False)`: `scheme, _, param =
authorization.partition(" ")`, `scheme.lower() != "bearer"` → no token, then
`if not token: return None`, then the core. -/
def getCurrentUserOptional (decode : String → Option JWTPayload) (db : DB)
    (authorization : Option String) : Option UserRec :=
  match authorization with
  | none => none
  | some h =>
      if h = "" then none
      else
        let scheme := h.toList.takeWhile (fun c => c ≠ ' ')
        let param := h.toList.drop (scheme.length + 1)
        if scheme.map Char.toLower ≠ "bearer".toList then none
        else if param = [] then none
        else getCurrentUserOptionalCore decode db (String.mk param)

/-! ## Lookup characterization under the unique-code constraint -/

theorem filter_code_single (l : List URLRec) (code : String) (u : URLRec)
    (wf : l.Pairwise (fun a b => a.short_code ≠ b.short_code))
    (hu : u ∈ l) (hc : u.short_code = code) :
    l.filter (fun v => v.short_code == code) = [u] := by
  induction l with
  | nil => cases hu
  | cons x xs ih =>
    rcases List.pairwise_cons.mp wf with ⟨hx, hxs⟩
    rcases List.mem_cons.mp hu with rfl | hmem
    · have hnil : xs.filter (fun v => v.short_code == code) = [] := by
        rw [List.filter_eq_nil_iff]
        intro v hv
        simp only [beq_iff_eq]
        exact fun e => (hx v hv) (hc.trans e.symm)
      simp [List.filter_cons, hc, hnil]
    · have hxcode : x.short_code ≠ code := by
        intro e
        exact (hx u hmem) (e.trans hc.symm)
      simp only [List.filter_cons, beq_iff_eq, hxcode, if_neg, ite_false]
      exact ih hxs hmem

theorem code_unique (db : DB) (code : String) (u v : URLRec)
    (wf : db.WfCodes) (hu : u ∈ db.urls) (hc : u.short_code = code)
    (hv : v ∈ db.urls) (hvc : v.short_code = code) : v = u := by
  have hf := filter_code_single db.urls code u wf hu hc
  have hvmem : v ∈ db.urls.filter (fun w => w.short_code == code) :=
    List.mem_filter.mpr ⟨hv, by simp [hvc]⟩
  rw [hf] at hvmem
  simpa using hvmem

theorem getByShortCode_found_incl (db : DB) (now : Nat) (code : String)
    (u : URLRec) (wf : db.WfCodes) (hu : u ∈ db.urls) (hc : u.short_code = code) :
    getByShortCode db now code true = if isExpired u now then none else some u := by
  unfold getByShortCode
  rw [filter_code_single db.urls code u wf hu hc]
  simp

theorem getByShortCode_found_active (db : DB) (now : Nat) (code : String)
    (u : URLRec) (wf : db.WfCodes) (hu : u ∈ db.urls) (hc : u.short_code = code) :
    getByShortCode db now code false =
      if u.is_active then (if isExpired u now then none else some u) else none := by
  unfold getByShortCode
  rw [filter_code_single db.urls code u wf hu hc]
  cases hact : u.is_active <;> simp [List.filter_cons, hact]

theorem getByShortCode_not_found (db : DB) (now : Nat) (code : String)
    (b : Bool) (h : ∀ u ∈ db.urls, u.short_code ≠ code) :
    getByShortCode db now code b = none := by
  have hnil : db.urls.filter (fun v => v.short_code == code) = [] := by
    rw [List.filter_eq_nil_iff]
    intro v hv
    simpa using h v hv
  unfold getByShortCode
  cases b <;> simp [hnil]

/-! ## C1 — stats lookup vs expired records -/

/-- A record whose `expires_at = 5` lies strictly before `now = 10`. -/
def dbExpired : DB :=
  { urls := [{ id := 1, short_code := "abc", original_url := "https://example.com",
               user_id := none, created_at := 0, expires_at := some 5,
               is_active := true, click_count := 0 }]
    users := [], clicks := [] }

/-- C1 is false as stated: a link record for `"abc"` exists (active, merely
expired), yet `URLService.get_url_stats` raises `URLNotFoundError`, because
`URLRepository.get_by_short_code` applies its expiration check even when
`include_inactive=True`. -/
theorem c1_stats_counterexample :
    (∃ u ∈ dbExpired.urls, u.short_code = "abc") ∧
    getUrlStats dbExpired 10 "abc" =
      .error (.notFound "Short code 'abc' not found") := by
  constructor
  · exact ⟨_, List.mem_cons_self _ _, rfl⟩
  · rfl

/-- C1 (amended): `get_url_stats` returns the full view (including
`is_active` and `expires_at`) for every existing record that is not expired,
whether active or deactivated; it raises `URLNotFoundError` exactly when
every record with that code is expired or no record exists at all. -/
theorem c1_stats_full_view (db : DB) (now : Nat) (code : String)
    (wf : db.WfCodes) :
    (∀ u ∈ db.urls, u.short_code = code → isExpired u now = false →
        getUrlStats db now code = .ok (viewOf u)) ∧
    ((∃ msg, getUrlStats db now code = .error (.notFound msg)) ↔
      ∀ u ∈ db.urls, u.short_code = code → isExpired u now = true) := by
  constructor
  · intro u hu hc hexp
    unfold getUrlStats
    rw [getByShortCode_found_incl db now code u wf hu hc, hexp]
    simp
  · by_cases h : ∃ u ∈ db.urls, u.short_code = code
    · rcases h with ⟨u, hu, hc⟩
      have hlook := getByShortCode_found_incl db now code u wf hu hc
      unfold getUrlStats
      rw [hlook]
      cases hexp : isExpired u now with
      | false =>
        constructor
        · rintro ⟨msg, hmsg⟩
          simp at hmsg
        · intro hall
          have hfa := hall u hu hc
          rw [hexp] at hfa
          exact absurd hfa (by decide)
      | true =>
        constructor
        · intro _ v hv hvc
          have := code_unique db code u v wf hu hc hv hvc
          subst this
          exact hexp
        · intro _
          exact ⟨_, rfl⟩
    · push_neg at h
      have hlook := getByShortCode_not_found db now code true h
      unfold getUrlStats
      rw [hlook]
      constructor
      · intro _ v hv hvc
        exact absurd hvc (h v hv)
      · intro _
        exact ⟨_, rfl⟩

/-- An active, never-expiring record for `"abc"`. -/
def dbOne : DB :=
  { urls := [{ id := 1, short_code := "abc", original_url := "https://example.com",
               user_id := none, created_at := 0, expires_at := none,
               is_active := true, click_count := 0 }]
    users := [], clicks := [] }

theorem c1_stats_full_view_witness :
    (∀ u ∈ dbOne.urls, u.short_code = "abc" → isExpired u 10 = false →
        getUrlStats dbOne 10 "abc" = .ok (viewOf u)) ∧
    ((∃ msg, getUrlStats dbOne 10 "abc" = .error (.notFound msg)) ↔
      ∀ u ∈ dbOne.urls, u.short_code = "abc" → isExpired u 10 = true) :=
  c1_stats_full_view dbOne 10 "abc" (by simp [DB.WfCodes, dbOne])

/-! ## C7 — deactivation -/

theorem getById_isSome_of_mem (db : DB) (u : URLRec) (hu : u ∈ db.urls) :
    (getById db u.id).isSome := by
  unfold getById
  have hm : u ∈ db.urls.filter (fun v => v.id == u.id) :=
    List.mem_filter.mpr ⟨hu, by simp⟩
  cases hf : db.urls.filter (fun v => v.id == u.id) with
  | nil => rw [hf] at hm; cases hm
  | cons a l => rfl

theorem repoDeactivate_eq (db : DB) (uid : Nat) (h : (getById db uid).isSome) :
    repoDeactivate db uid =
      { db with urls := db.urls.map (fun v =>
          if v.id == uid then { v with is_active := false } else v) } := by
  unfold repoDeactivate
  cases hg : getById db uid with
  | none => rw [hg] at h; cases h
  | some w => rfl

theorem c7_deactivate_idempotent (db : DB) (now : Nat) (code : String)
    (wf : db.WfCodes) :
    (∀ u ∈ db.urls, u.short_code = code → isExpired u now = false →
      ∃ db', deactivateUrl db now code = .ok db' ∧
        db'.urls = db.urls.map (fun v =>
          if v.id == u.id then { v with is_active := false } else v) ∧
        (∀ v ∈ db'.urls, v.short_code = code → v.is_active = false) ∧
        deactivateUrl db' now code = .ok db') ∧
    ((∃ msg, deactivateUrl db now code = .error (.notFound msg)) ↔
      ∀ u ∈ db.urls, u.short_code = code → isExpired u now = true) := by
  constructor
  · intro u hu hc hexp
    set f := fun v : URLRec =>
      if v.id == u.id then { v with is_active := false } else v with hf
    have hfcode : ∀ v, (f v).short_code = v.short_code := by
      intro v; rw [hf]; dsimp only; split <;> rfl
    have hfexp : ∀ v, (f v).expires_at = v.expires_at := by
      intro v; rw [hf]; dsimp only; split <;> rfl
    have hfid : ∀ v, (f v).id = v.id := by
      intro v; rw [hf]; dsimp only; split <;> rfl
    have hfu : f u = { u with is_active := false } := by
      rw [hf]; simp
    refine ⟨{ db with urls := db.urls.map f }, ?_, rfl, ?_, ?_⟩
    · unfold deactivateUrl
      rw [getByShortCode_found_incl db now code u wf hu hc, hexp]
      simp only [Bool.false_eq_true, if_false]
      rw [repoDeactivate_eq db u.id (getById_isSome_of_mem db u hu)]
    · intro v hv hvc
      rcases List.mem_map.mp hv with ⟨w, hw, rfl⟩
      have hwc : w.short_code = code := by rw [← hfcode w]; exact hvc
      have := code_unique db code u w wf hu hc hw hwc
      subst this
      rw [hfu]
    · have wf' : DB.WfCodes { db with urls := db.urls.map f } := by
        unfold DB.WfCodes at wf ⊢
        simp only []
        rw [List.pairwise_map]
        exact wf.imp (by intro a b hab; rw [hfcode, hfcode]; exact hab)
      have hu' : f u ∈ (db.urls.map f) := List.mem_map.mpr ⟨u, hu, rfl⟩
      have hc' : (f u).short_code = code := by rw [hfcode]; exact hc
      have hexp' : isExpired (f u) now = false := by
        unfold isExpired; rw [hfexp]; unfold isExpired at hexp; exact hexp
      unfold deactivateUrl
      rw [getByShortCode_found_incl _ now code (f u) wf' hu' hc', hexp']
      simp only [Bool.false_eq_true, if_false]
      rw [repoDeactivate_eq _ (f u).id (getById_isSome_of_mem _ (f u) hu')]
      have hmm : (db.urls.map f).map (fun v =>
          if v.id == (f u).id then { v with is_active := false } else v) =
          db.urls.map f := by
        rw [hfid, List.map_map]
        apply List.map_congr_left
        intro a _
        show f (f a) = f a
        rw [hf]
        dsimp only
        by_cases hid : a.id = u.id
        · simp [hid]
        · simp [hid]
      simp only [hmm]
  · by_cases h : ∃ u ∈ db.urls, u.short_code = code
    · rcases h with ⟨u, hu, hc⟩
      unfold deactivateUrl
      rw [getByShortCode_found_incl db now code u wf hu hc]
      cases hexp : isExpired u now with
      | false =>
        constructor
        · rintro ⟨msg, hmsg⟩
          simp at hmsg
        · intro hall
          have hfa := hall u hu hc
          rw [hexp] at hfa
          exact absurd hfa (by decide)
      | true =>
        constructor
        · intro _ v hv hvc
          have := code_unique db code u v wf hu hc hv hvc
          subst this
          exact hexp
        · intro _
          exact ⟨_, rfl⟩
    · push_neg at h
      unfold deactivateUrl
      rw [getByShortCode_not_found db now code true h]
      constructor
      · intro _ v hv hvc
        exact absurd hvc (h v hv)
      · intro _
        exact ⟨_, rfl⟩

/-- C7 is false as stated: the record for `"abc"` exists (it was created and
never deleted, merely expired), yet `URLService.deactivate_url` raises
`URLNotFoundError`, because the `include_inactive=True` lookup still applies
the expiration check. -/
theorem c7_deactivate_counterexample :
    (∃ u ∈ dbExpired.urls, u.short_code = "abc") ∧
    deactivateUrl dbExpired 10 "abc" =
      .error (.notFound "Short code 'abc' not found") := by
  constructor
  · exact ⟨_, List.mem_cons_self _ _, rfl⟩
  · rfl

theorem c7_deactivate_idempotent_witness :
    (∀ u ∈ dbOne.urls, u.short_code = "abc" → isExpired u 10 = false →
      ∃ db', deactivateUrl dbOne 10 "abc" = .ok db' ∧
        db'.urls = dbOne.urls.map (fun v =>
          if v.id == u.id then { v with is_active := false } else v) ∧
        (∀ v ∈ db'.urls, v.short_code = "abc" → v.is_active = false) ∧
        deactivateUrl db' 10 "abc" = .ok db') ∧
    ((∃ msg, deactivateUrl dbOne 10 "abc" = .error (.notFound msg)) ↔
      ∀ u ∈ dbOne.urls, u.short_code = "abc" → isExpired u 10 = true) :=
  c7_deactivate_idempotent dbOne 10 "abc" (by simp [DB.WfCodes, dbOne])

/-! ## C8 — redirect gating -/

/-- C8: for a deactivated or expired link, `track_click` records nothing and
raises `URLNotFoundError`, and `GET /{code}` leaves the database unchanged and
returns the same response it returns when no record with that code exists at
all (the 404 detail does not distinguish the cases). -/
theorem c8_redirect_gating (db : DB) (now : Nat) (code : String)
    (meta : RequestMeta) (insertOk incrOk : Bool) (u : URLRec)
    (wf : db.WfCodes) (hu : u ∈ db.urls) (hc : u.short_code = code)
    (hgate : u.is_active = false ∨ isExpired u now = true) :
    trackClick db now code meta insertOk incrOk =
      (.error (.notFound ("Short code '" ++ code ++ "' not found or expired")), db) ∧
    (redirectToUrl db now code meta insertOk incrOk).2 = db ∧
    (redirectToUrl db now code meta insertOk incrOk).1 =
      (redirectToUrl { db with urls := db.urls.filter (fun v => v.short_code != code) }
        now code meta insertOk incrOk).1 := by
  have hnone : getByShortCode db now code false = none := by
    rw [getByShortCode_found_active db now code u wf hu hc]
    rcases hgate with hact | hexp
    · rw [hact]
      simp
    · cases hact : u.is_active
      · simp
      · rw [hexp]
        simp
  have htrack : trackClick db now code meta insertOk incrOk =
      (.error (.notFound ("Short code '" ++ code ++ "' not found or expired")), db) := by
    unfold trackClick
    rw [hnone]
  have hnone' : getByShortCode
      { db with urls := db.urls.filter (fun v => v.short_code != code) }
      now code false = none := by
    apply getByShortCode_not_found
    intro v hv
    exact bne_iff_ne.mp (List.mem_filter.mp hv).2
  refine ⟨htrack, ?_, ?_⟩
  · unfold redirectToUrl
    by_cases hres : RESERVED_PATHS.contains code.toLower = true
    · rw [if_pos hres]
    · rw [if_neg hres, hnone]
  · unfold redirectToUrl
    by_cases hres : RESERVED_PATHS.contains code.toLower = true
    · rw [if_pos hres, if_pos hres]
    · rw [if_neg hres, if_neg hres, hnone, hnone']

/-- A deactivated, non-expired record for `"abc"`, with one stored click. -/
def dbInactive : DB :=
  { urls := [{ id := 1, short_code := "abc", original_url := "https://example.com",
               user_id := none, created_at := 0, expires_at := none,
               is_active := false, click_count := 3 }]
    users := [], clicks := [] }

theorem c8_redirect_gating_witness :
    (dbInactive.WfCodes ∧
      (∃ u ∈ dbInactive.urls, u.short_code = "abc" ∧ u.is_active = false)) ∧
    (trackClick dbInactive 10 "abc" ⟨none, none, none⟩ true true =
      (.error (.notFound "Short code 'abc' not found or expired"), dbInactive) ∧
    (redirectToUrl dbInactive 10 "abc" ⟨none, none, none⟩ true true).2 = dbInactive ∧
    (redirectToUrl dbInactive 10 "abc" ⟨none, none, none⟩ true true).1 =
      (redirectToUrl
        { dbInactive with urls := dbInactive.urls.filter (fun v => v.short_code != "abc") }
        10 "abc" ⟨none, none, none⟩ true true).1) :=
  ⟨⟨by simp [DB.WfCodes, dbInactive], ⟨_, List.mem_cons_self _ _, rfl, rfl⟩⟩,
    c8_redirect_gating dbInactive 10 "abc" ⟨none, none, none⟩ true true _
      (by simp [DB.WfCodes, dbInactive]) (List.mem_cons_self _ _) rfl (Or.inl rfl)⟩

/-! ## C10 — listing excludes deactivated links -/

theorem mem_insertByCreatedDesc (u v : URLRec) (l : List URLRec) :
    v ∈ insertByCreatedDesc u l ↔ v = u ∨ v ∈ l := by
  induction l with
  | nil => simp [insertByCreatedDesc]
  | cons x xs ih =>
    unfold insertByCreatedDesc
    split
    · simp
    · simp only [List.mem_cons, ih]
      tauto

theorem mem_sortByCreatedDesc (v : URLRec) (l : List URLRec) :
    v ∈ sortByCreatedDesc l ↔ v ∈ l := by
  induction l with
  | nil => simp [sortByCreatedDesc]
  | cons x xs ih =>
    unfold sortByCreatedDesc
    rw [mem_insertByCreatedDesc, ih, List.mem_cons]

/-- C10 (amended): the authenticated listing returns only `is_active=true`
links of the owner, and its total counts only those; a deactivated link is
still retrievable through `get_url_stats` provided it is not expired. -/
theorem c10_list_excludes_inactive (db : DB) (now : Nat) (page pageSize : Nat)
    (user : UserRec) (wf : db.WfCodes) :
    (∀ v ∈ (serviceListUrls db page pageSize (some user)).urls,
        v.is_active = true) ∧
    (serviceListUrls db page pageSize (some user)).total =
      (db.urls.filter (fun u => u.user_id == some user.id && u.is_active)).length ∧
    (∀ u ∈ db.urls, u.is_active = false → isExpired u now = false →
        getUrlStats db now u.short_code = .ok (viewOf u)) := by
  have hsvc : (serviceListUrls db page pageSize (some user)).urls =
      (((sortByCreatedDesc
          ((db.urls.filter (fun u => u.user_id == some user.id)).filter
            (fun u => u.is_active))).drop ((page - 1) * pageSize)).take
        pageSize).map viewOf := rfl
  have htot : (serviceListUrls db page pageSize (some user)).total =
      ((db.urls.filter (fun u => u.user_id == some user.id)).filter
        (fun u => u.is_active)).length := rfl
  refine ⟨?_, ?_, ?_⟩
  · intro v hv
    rw [hsvc] at hv
    rcases List.mem_map.mp hv with ⟨w, hw, rfl⟩
    have hw' := List.mem_of_mem_drop (List.mem_of_mem_take hw)
    rw [mem_sortByCreatedDesc] at hw'
    have := (List.mem_filter.mp hw').2
    simpa [viewOf] using this
  · rw [htot, List.filter_filter]
    congr 1
    apply List.filter_congr
    intro a _
    exact Bool.and_comm _ _
  · intro u hu hact hexp
    unfold getUrlStats
    rw [getByShortCode_found_incl db now u.short_code u wf hu rfl, hexp]
    simp

/-- A link that is both deactivated and expired, owned by the one user. -/
def userAlice : UserRec :=
  { id := 1, email := "alice@example.com", username := "alice",
    hashed_password := [], is_active := true }

def dbDeactExpired : DB :=
  { urls := [{ id := 1, short_code := "abc", original_url := "https://example.com",
               user_id := some 1, created_at := 0, expires_at := some 5,
               is_active := false, click_count := 0 }]
    users := [userAlice], clicks := [] }

/-- C10 is false as stated: the deactivated (and expired) owned link is
excluded from the listing, but it is not retrievable via the stats lookup —
`get_url_stats` raises `URLNotFoundError` on it. -/
theorem c10_counterexample :
    (∃ u ∈ dbDeactExpired.urls,
        u.user_id = some userAlice.id ∧ u.is_active = false) ∧
    (serviceListUrls dbDeactExpired 1 20 (some userAlice)).urls = [] ∧
    (serviceListUrls dbDeactExpired 1 20 (some userAlice)).total = 0 ∧
    getUrlStats dbDeactExpired 10 "abc" =
      .error (.notFound "Short code 'abc' not found") := by
  refine ⟨⟨_, List.mem_cons_self _ _, rfl, rfl⟩, rfl, rfl, rfl⟩

/-- One active and one deactivated link, both owned by the user. -/
def dbMixed : DB :=
  { urls := [{ id := 1, short_code := "abc", original_url := "https://example.com",
               user_id := some 1, created_at := 0, expires_at := none,
               is_active := true, click_count := 0 },
             { id := 2, short_code := "xyz", original_url := "https://example.org",
               user_id := some 1, created_at := 1, expires_at := none,
               is_active := false, click_count := 0 }]
    users := [userAlice], clicks := [] }

theorem c10_list_excludes_inactive_witness :
    (∀ v ∈ (serviceListUrls dbMixed 1 20 (some userAlice)).urls,
        v.is_active = true) ∧
    (serviceListUrls dbMixed 1 20 (some userAlice)).total =
      (dbMixed.urls.filter (fun u => u.user_id == some userAlice.id && u.is_active)).length ∧
    (∀ u ∈ dbMixed.urls, u.is_active = false → isExpired u 10 = false →
        getUrlStats dbMixed 10 u.short_code = .ok (viewOf u)) :=
  c10_list_excludes_inactive dbMixed 10 1 20 userAlice
    (by simp [DB.WfCodes, dbMixed])

/-! ## C4 — anonymous links under the authorized paths -/

theorem deactivateUrl_ok_inactive (db : DB) (now : Nat) (code : String)
    (u : URLRec) (wf : db.WfCodes) (hu : u ∈ db.urls) (hc : u.short_code = code)
    (hexp : isExpired u now = false) :
    ∃ db', deactivateUrl db now code = .ok db' ∧
      ∀ v ∈ db'.urls, v.short_code = code → v.is_active = false := by
  refine ⟨{ db with urls := db.urls.map (fun v =>
      if v.id == u.id then { v with is_active := false } else v) }, ?_, ?_⟩
  · unfold deactivateUrl
    rw [getByShortCode_found_incl db now code u wf hu hc, hexp]
    simp only [Bool.false_eq_true, if_false]
    rw [repoDeactivate_eq db u.id (getById_isSome_of_mem db u hu)]
  · intro v hv hvc
    rcases List.mem_map.mp hv with ⟨w, hw, rfl⟩
    have hwc : w.short_code = code := by
      by_cases hid : w.id = u.id <;> simp [hid] at hvc <;> exact hvc
    have := code_unique db code u w wf hu hc hw hwc
    subst this
    simp

/-- C4 (amended): for an anonymous (ownerless) link, the two analytics paths
reject every authenticated user with 403, but the deactivation path does not:
its ownership test `if url.user_id and ...` is vacuous for a null owner, so
any authenticated user can deactivate an anonymous link. -/
theorem c4_anonymous_link_access (db : DB) (now : Nat) (code : String)
    (u : URLRec) (cu : UserRec) (wf : db.WfCodes) (hu : u ∈ db.urls)
    (hc : u.short_code = code) (hanon : u.user_id = none)
    (hexp : isExpired u now = false) :
    routeAnalyticsSummary db now code cu =
      .error (.http 403 "You don't have permission to view analytics for this URL") ∧
    (∀ limit, 1 ≤ limit → limit ≤ 500 →
      routeRecentClicks db now code cu limit =
        .error (.http 403 "You don't have permission to view analytics for this URL")) ∧
    (∃ db', routeDeactivateUrl db now code (some cu) = .ok db' ∧
      ∀ v ∈ db'.urls, v.short_code = code → v.is_active = false) := by
  have hlook := getByShortCode_found_incl db now code u wf hu hc
  rw [hexp] at hlook
  simp only [Bool.false_eq_true, if_false] at hlook
  have hforb : analyticsForbidden u cu = true := by
    unfold analyticsForbidden
    rw [hanon]
  refine ⟨?_, ?_, ?_⟩
  · unfold routeAnalyticsSummary
    rw [hlook]
    simp [hforb]
  · intro limit h1 h500
    unfold routeRecentClicks
    rw [if_neg (by omega), hlook]
    simp [hforb]
  · rcases deactivateUrl_ok_inactive db now code u wf hu hc hexp with
      ⟨db', hok, hinact⟩
    refine ⟨db', ?_, hinact⟩
    unfold routeDeactivateUrl
    rw [hlook]
    simp [hanon, hok]

/-- C4 is false as stated: `"abc"` is an anonymous link, `alice` is an
authenticated user, and `DELETE /urls/abc` on her behalf is not rejected —
it succeeds and deactivates the anonymous link. -/
theorem c4_counterexample :
    (∃ u ∈ dbOne.urls, u.short_code = "abc" ∧ u.user_id = none) ∧
    routeDeactivateUrl dbOne 10 "abc" (some userAlice) =
      .ok { dbOne with urls :=
        [{ id := 1, short_code := "abc", original_url := "https://example.com",
           user_id := none, created_at := 0, expires_at := none,
           is_active := false, click_count := 0 }] } := by
  exact ⟨⟨_, List.mem_cons_self _ _, rfl, rfl⟩, rfl⟩

theorem c4_anonymous_link_access_witness :
    routeAnalyticsSummary dbOne 10 "abc" userAlice =
      .error (.http 403 "You don't have permission to view analytics for this URL") ∧
    (∀ limit, 1 ≤ limit → limit ≤ 500 →
      routeRecentClicks dbOne 10 "abc" userAlice limit =
        .error (.http 403 "You don't have permission to view analytics for this URL")) ∧
    (∃ db', routeDeactivateUrl dbOne 10 "abc" (some userAlice) = .ok db' ∧
      ∀ v ∈ db'.urls, v.short_code = "abc" → v.is_active = false) :=
  c4_anonymous_link_access dbOne 10 "abc" _ userAlice
    (by simp [DB.WfCodes, dbOne]) (List.mem_cons_self _ _) rfl rfl rfl

/-! ## C3 — user deletion and owned links -/

/-- C3 (amended): deleting a user through the ORM session (the
`cascade="all, delete-orphan"` on `User.urls`) deletes every owned link and
keeps exactly the links not owned by the deleted user; a database-level
delete instead fires the FK's `ondelete="SET NULL"`, preserving every link
row and nulling the owner reference of the formerly owned ones. -/
theorem c3_user_delete_semantics (db : DB) (uid : Nat) :
    (∀ u ∈ (ormDeleteUser db uid).urls, u.user_id ≠ some uid) ∧
    (∀ u ∈ db.urls, u.user_id ≠ some uid → u ∈ (ormDeleteUser db uid).urls) ∧
    (∀ u ∈ db.urls, u.user_id = some uid →
      ({ u with user_id := none } : URLRec) ∈ (sqlDeleteUser db uid).urls) ∧
    (sqlDeleteUser db uid).urls.length = db.urls.length := by
  refine ⟨?_, ?_, ?_, ?_⟩
  · intro u hu
    have := (List.mem_filter.mp hu).2
    simpa using this
  · intro u hu hne
    exact List.mem_filter.mpr ⟨hu, by simpa using hne⟩
  · intro u hu howned
    unfold sqlDeleteUser
    refine List.mem_map.mpr ⟨u, hu, ?_⟩
    rw [if_pos (by simp [howned])]
  · unfold sqlDeleteUser
    exact List.length_map _ _

/-- A user owning one link. -/
def dbOwned : DB :=
  { urls := [{ id := 1, short_code := "abc", original_url := "https://example.com",
               user_id := some 1, created_at := 0, expires_at := none,
               is_active := true, click_count := 0 }]
    users := [userAlice], clicks := [] }

/-- C3 is false as stated: at the database level, deleting the owner of
`"abc"` leaves the link surviving as exactly the ownerless row (nulled owner
reference) that the claim excludes; only the ORM cascade deletes it. -/
theorem c3_counterexample :
    (sqlDeleteUser dbOwned 1).users = [] ∧
    (sqlDeleteUser dbOwned 1).urls =
      [{ id := 1, short_code := "abc", original_url := "https://example.com",
         user_id := none, created_at := 0, expires_at := none,
         is_active := true, click_count := 0 }] := by
  exact ⟨rfl, rfl⟩

theorem c3_user_delete_semantics_witness :
    (∀ u ∈ (ormDeleteUser dbOwned 1).urls, u.user_id ≠ some 1) ∧
    (∀ u ∈ dbOwned.urls, u.user_id ≠ some 1 → u ∈ (ormDeleteUser dbOwned 1).urls) ∧
    (∀ u ∈ dbOwned.urls, u.user_id = some 1 →
      ({ u with user_id := none } : URLRec) ∈ (sqlDeleteUser dbOwned 1).urls) ∧
    (sqlDeleteUser dbOwned 1).urls.length = dbOwned.urls.length :=
  c3_user_delete_semantics dbOwned 1

/-! ## C2 — atomicity of `track_click` -/

/-- C2: the code violates the required atomicity.  `AnalyticsRepository.create`
and `URLRepository.increment_click_count` each commit their own transaction;
in the execution where the insert's commit succeeds and the increment's commit
fails, `track_click` raises `DatabaseError` while the committed state already
contains the new ClickEvent row and still has `click_count = 0` — a partial
application. -/
theorem c2_partial_commit :
    (trackClick dbOne 10 "abc" ⟨some "1.2.3.4", none, none⟩ true false).1 =
      .error (.databaseError "Failed to increment click count") ∧
    (trackClick dbOne 10 "abc" ⟨some "1.2.3.4", none, none⟩ true false).2.clicks.length =
      dbOne.clicks.length + 1 ∧
    (∀ u ∈ (trackClick dbOne 10 "abc" ⟨some "1.2.3.4", none, none⟩ true false).2.urls,
      u.click_count = 0) := by
  refine ⟨rfl, rfl, ?_⟩
  intro u hu
  cases hu with
  | head => rfl
  | tail _ h => cases h

/-! ## C5 — code allocation -/

theorem allocTry_exhausted_iff (db : DB) (draws : Nat → String) :
    ∀ fuel i, (∃ m, allocTry db draws i fuel = .error (.allocationExhausted m)) ↔
      ∀ k < fuel, checkShortCodeExists db (draws (i + k)) = true := by
  intro fuel
  induction fuel with
  | zero =>
    intro i
    constructor
    · intro _ k hk
      omega
    · intro _
      exact ⟨_, rfl⟩
  | succ n ih =>
    intro i
    unfold allocTry
    cases hcol : checkShortCodeExists db (draws i) with
    | false =>
      simp only [Bool.false_eq_true, if_false]
      constructor
      · rintro ⟨m, hm⟩
        cases hm
      · intro hall
        have := hall 0 (by omega)
        rw [Nat.add_zero] at this
        rw [this] at hcol
        cases hcol
    | true =>
      simp only [if_true]
      rw [ih (i + 1)]
      constructor
      · intro hall k hk
        cases k with
        | zero => simpa using hcol
        | succ k' =>
          have := hall k' (by omega)
          rw [show i + 1 + k' = i + (k' + 1) by omega] at this
          exact this
      · intro hall k hk
        have := hall (k + 1) (by omega)
        rw [show i + (k + 1) = i + 1 + k by omega] at this
        exact this

theorem allocTry_ok_first (db : DB) (draws : Nat → String) :
    ∀ fuel i k, k < fuel →
      checkShortCodeExists db (draws (i + k)) = false →
      (∀ j < k, checkShortCodeExists db (draws (i + j)) = true) →
      allocTry db draws i fuel = .ok (draws (i + k)) := by
  intro fuel
  induction fuel with
  | zero =>
    intro i k hk
    omega
  | succ n ih =>
    intro i k hk hfree hprev
    unfold allocTry
    cases k with
    | zero =>
      rw [Nat.add_zero] at hfree
      rw [hfree]
      simp
    | succ k' =>
      have h0 := hprev 0 (by omega)
      rw [Nat.add_zero] at h0
      rw [h0]
      simp only [if_true]
      have := ih (i + 1) k' (by omega)
        (by rw [show i + 1 + k' = i + (k' + 1) by omega]; exact hfree)
        (by
          intro j hj
          have := hprev (j + 1) (by omega)
          rw [show i + (j + 1) = i + 1 + j by omega] at this
          exact this)
      rw [this, show i + 1 + k' = i + (k' + 1) by omega]

/-- C5: with a non-empty custom code the allocator fails with the conflict
error exactly when the code exists among all links (active or not) and never
retries nor reports exhaustion; without one it draws codes of the configured
length (default 8) over the 62-character alphanumeric alphabet, takes the
first of at most 10 draws that does not collide, and reports exhaustion
exactly when all 10 draws collide. -/
theorem c5_code_allocation (db : DB) (draws : Nat → String) :
    (∀ c : String, c ≠ "" →
      ((∃ m, allocateCode db (some c) draws = .error (.codeConflict m)) ↔
        checkShortCodeExists db c = true) ∧
      (checkShortCodeExists db c = false → allocateCode db (some c) draws = .ok c) ∧
      (∀ m, allocateCode db (some c) draws ≠ .error (.allocationExhausted m))) ∧
    ((∃ m, allocateCode db none draws = .error (.allocationExhausted m)) ↔
      ∀ i < 10, checkShortCodeExists db (draws i) = true) ∧
    (∀ k < 10, checkShortCodeExists db (draws k) = false →
      (∀ j < k, checkShortCodeExists db (draws j) = true) →
      allocateCode db none draws = .ok (draws k)) ∧
    shortCodeAlphabet.length = 62 ∧
    settingsSHORT_CODE_LENGTH = 8 ∧
    (∀ len pick, (generateShortCode len pick).length = len) ∧
    (∀ len pick, ∀ ch ∈ (generateShortCode len pick).toList, ch.isAlphanum = true) ∧
    (∀ pick, (generateShortCodeDefault pick).length = 8) := by
  have hlen : ∀ len pick, (generateShortCode len pick).length = len := by
    intro len pick
    show ((List.range len).map (fun i => shortCodeAlphabet.get (pick i))).length = len
    rw [List.length_map, List.length_range]
  have halpha : ∀ c ∈ shortCodeAlphabet, c.isAlphanum = true := by decide
  refine ⟨?_, ?_, ?_, by decide, rfl, hlen, ?_, fun pick => hlen _ pick⟩
  · intro c hc
    have hred : allocateCode db (some c) draws =
        if c ≠ "" then
          (if checkShortCodeExists db c then
            .error (.codeConflict ("Short code '" ++ c ++ "' already exists"))
          else .ok c)
        else allocTry db draws 0 10 := rfl
    rw [hred, if_pos hc]
    cases hex : checkShortCodeExists db c with
    | false => refine ⟨?_, ?_, ?_⟩ <;> simp
    | true => refine ⟨?_, ?_, ?_⟩ <;> simp
  · have := allocTry_exhausted_iff db draws 10 0
    simp only [Nat.zero_add] at this
    exact this
  · intro k hk hfree hprev
    have := allocTry_ok_first db draws 10 0 k hk
      (by rw [Nat.zero_add]; exact hfree)
      (by intro j hj; rw [Nat.zero_add]; exact hprev j hj)
    rw [Nat.zero_add] at this
    exact this
  · intro len pick ch hch
    have hch' : ch ∈ (List.range len).map (fun i => shortCodeAlphabet.get (pick i)) := hch
    rcases List.mem_map.mp hch' with ⟨i, _, rfl⟩
    have hmem : shortCodeAlphabet.get (pick i) ∈ shortCodeAlphabet := by
      have h2 := List.get_mem shortCodeAlphabet (pick i).1 (pick i).2
      simpa using h2
    exact halpha _ hmem

theorem c5_code_allocation_witness :
    (("abc" : String) ≠ "" ∧ checkShortCodeExists dbOne "abc" = true ∧
      ("zzzz" : String) ≠ "" ∧ checkShortCodeExists dbOne "zzzz" = false) ∧
    (∃ m, allocateCode dbOne (some "abc") (fun _ => "qqqqqqqq") =
      .error (.codeConflict m)) ∧
    allocateCode dbOne (some "zzzz") (fun _ => "qqqqqqqq") = .ok "zzzz" :=
  ⟨⟨by decide, by decide, by decide, by decide⟩,
   ((c5_code_allocation dbOne (fun _ => "qqqqqqqq")).1 "abc" (by decide)).1.mpr
     (by decide),
   ((c5_code_allocation dbOne (fun _ => "qqqqqqqq")).1 "zzzz" (by decide)).2.1
     (by decide)⟩

/-! ## C9 — mandatory vs optional token verification -/

/-- C9 (amended): after token extraction, the two modes apply identical
validation — on every token and database state the mandatory mode accepts
(returns the user) exactly when the optional mode does, and the mandatory
mode raises exactly where the optional mode returns no identity. -/
theorem c9_token_core_equiv (decode : String → Option JWTPayload) (db : DB) :
    ∀ token, getCurrentUserCore decode db token =
      getCurrentUserOptionalCore decode db token := by
  intro token
  unfold getCurrentUserCore getCurrentUserOptionalCore
  cases decode token with
  | none => rfl
  | some payload =>
    dsimp only
    cases payload.sub with
    | none => rfl
    | some s =>
      dsimp only
      by_cases hs : s = ""
      · subst hs
        rw [if_pos rfl]
        rfl
      · rw [if_neg hs]

def decodeTok : String → Option JWTPayload :=
  fun s => if s = "tok" then some { sub := some "1" } else none

def dbUser1 : DB := { urls := [], users := [userAlice], clicks := [] }

/-- C9 is false as stated: the two modes do not accept the same inputs.
`get_current_user` demands the exact prefix `"Bearer "`, while the OAuth2
scheme parser behind `get_current_user_optional` compares the scheme
case-insensitively — on the header `"bearer tok"` carrying a valid token of
an active user, the mandatory mode raises while the optional mode returns
the user. -/
theorem c9_token_modes_counterexample :
    getCurrentUser decodeTok dbUser1 (some "bearer tok") = none ∧
    getCurrentUserOptional decodeTok dbUser1 (some "bearer tok") =
      some userAlice := by
  exact ⟨rfl, by decide⟩

/-! ## C6 — password truncation consistency -/

theorem charBytes_len1 (c : Nat) (h : c < 0x80) : (charBytes c).length = 1 := by
  unfold charBytes
  rw [if_pos h]
  rfl

theorem charBytes_len2 (c : Nat) (h1 : 0x80 ≤ c) (h2 : c < 0x800) :
    (charBytes c).length = 2 := by
  unfold charBytes
  rw [if_neg (by omega), if_pos h2]
  rfl

theorem charBytes_len3 (c : Nat) (h1 : 0x800 ≤ c) (h2 : c < 0x10000) :
    (charBytes c).length = 3 := by
  unfold charBytes
  rw [if_neg (by omega), if_neg (by omega), if_pos h2]
  rfl

theorem charBytes_len4 (c : Nat) (h1 : 0x10000 ≤ c) :
    (charBytes c).length = 4 := by
  unfold charBytes
  rw [if_neg (by omega), if_neg (by omega), if_neg (by omega)]
  rfl

theorem utf8Encode_cons (c : Nat) (l : List Nat) :
    utf8Encode (c :: l) = charBytes c ++ utf8Encode l := by
  unfold utf8Encode
  rw [List.map_cons, List.flatten_cons]

theorem isCont_bounds (b : Nat) (h : isCont b = true) : 0x80 ≤ b ∧ b < 0xC0 := by
  unfold isCont at h
  simp only [Bool.and_eq_true, decide_eq_true_eq] at h
  exact h

/-- Re-encoding whatever the decoder accepted never yields more bytes than
were consumed: each accepted sequence re-encodes to exactly its own length
and dropped bytes contribute nothing. -/
theorem utf8DecodeIgnoreF_encode_length (fuel : Nat) :
    ∀ bs : List Nat, (utf8Encode (utf8DecodeIgnoreF fuel bs)).length ≤ bs.length := by
  induction fuel with
  | zero =>
    intro bs
    simp [utf8DecodeIgnoreF, utf8Encode]
  | succ n ih =>
    intro bs
    cases bs with
    | nil => simp [utf8DecodeIgnoreF, utf8Encode]
    | cons b bs =>
      rw [utf8DecodeIgnoreF.eq_def]
      dsimp only
      by_cases h1 : b < 0x80
      · rw [if_pos h1, utf8Encode_cons, List.length_append, charBytes_len1 b h1]
        have := ih bs
        simp only [List.length_cons]
        omega
      · rw [if_neg h1]
        by_cases h2 : 0xC2 ≤ b ∧ b < 0xE0
        · rw [if_pos h2]
          cases bs with
          | nil => simp [utf8Encode]
          | cons b1 bs1 =>
            dsimp only
            by_cases hcont : isCont b1 = true
            · rw [if_pos hcont, utf8Encode_cons, List.length_append]
              have hb1 := isCont_bounds b1 hcont
              rw [charBytes_len2 _ (by omega) (by omega)]
              have := ih bs1
              simp only [List.length_cons]
              omega
            · rw [if_neg hcont]
              have := ih (b1 :: bs1)
              simp only [List.length_cons] at this ⊢
              omega
        · rw [if_neg h2]
          by_cases h3 : 0xE0 ≤ b ∧ b < 0xF0
          · rw [if_pos h3]
            cases bs with
            | nil =>
              dsimp only
              have := ih ([] : List Nat)
              simp only [List.length_nil] at this
              simp only [List.length_cons]
              omega
            | cons b1 bs1 =>
              cases bs1 with
              | nil =>
                dsimp only
                have := ih [b1]
                simp only [List.length_cons] at this ⊢
                omega
              | cons b2 bs2 =>
                dsimp only
                by_cases hok : (isCont b1 && isCont b2 &&
                    decide (0x800 ≤ (b - 0xE0) * 4096 + (b1 - 0x80) * 64 + (b2 - 0x80)) &&
                    (decide ((b - 0xE0) * 4096 + (b1 - 0x80) * 64 + (b2 - 0x80) < 0xD800) ||
                     decide (0xDFFF < (b - 0xE0) * 4096 + (b1 - 0x80) * 64 + (b2 - 0x80)))) = true
                · rw [if_pos hok, utf8Encode_cons, List.length_append]
                  have hparts := hok
                  simp only [Bool.and_eq_true, decide_eq_true_eq] at hparts
                  have hhi : (b - 0xE0) * 4096 + (b1 - 0x80) * 64 + (b2 - 0x80) < 0x10000 := by
                    have hb1 := isCont_bounds b1 hparts.1.1.1
                    have hb2 := isCont_bounds b2 hparts.1.1.2
                    omega
                  rw [charBytes_len3 _ hparts.1.2 hhi]
                  have := ih bs2
                  simp only [List.length_cons]
                  omega
                · rw [if_neg hok]
                  have := ih (b1 :: b2 :: bs2)
                  simp only [List.length_cons] at this ⊢
                  omega
          · rw [if_neg h3]
            by_cases h4 : 0xF0 ≤ b ∧ b < 0xF5
            · rw [if_pos h4]
              cases bs with
              | nil =>
                dsimp only
                have := ih ([] : List Nat)
                simp only [List.length_nil] at this
                simp only [List.length_cons]
                omega
              | cons b1 bs1 =>
                cases bs1 with
                | nil =>
                  dsimp only
                  have := ih [b1]
                  simp only [List.length_cons] at this ⊢
                  omega
                | cons b2 bs2 =>
                  cases bs2 with
                  | nil =>
                    dsimp only
                    have := ih [b1, b2]
                    simp only [List.length_cons] at this ⊢
                    omega
                  | cons b3 bs3 =>
                    dsimp only
                    by_cases hok : (isCont b1 && isCont b2 && isCont b3 &&
                        decide (0x10000 ≤ (b - 0xF0) * 262144 + (b1 - 0x80) * 4096 + (b2 - 0x80) * 64 + (b3 - 0x80)) &&
                        decide ((b - 0xF0) * 262144 + (b1 - 0x80) * 4096 + (b2 - 0x80) * 64 + (b3 - 0x80) < 0x110000)) = true
                    · rw [if_pos hok, utf8Encode_cons, List.length_append]
                      have hparts := hok
                      simp only [Bool.and_eq_true, decide_eq_true_eq] at hparts
                      rw [charBytes_len4 _ hparts.1.2]
                      have := ih bs3
                      simp only [List.length_cons]
                      omega
                    · rw [if_neg hok]
                      have := ih (b1 :: b2 :: b3 :: bs3)
                      simp only [List.length_cons] at this ⊢
                      omega
            · rw [if_neg h4]
              have := ih bs
              simp only [List.length_cons]
              omega

theorem utf8DecodeIgnore_encode_length (bs : List Nat) :
    (utf8Encode (utf8DecodeIgnore bs)).length ≤ bs.length :=
  utf8DecodeIgnoreF_encode_length bs.length bs

theorem hashTruncate_encode_le (p : List Nat) (h : 72 < (utf8Encode p).length) :
    (utf8Encode (hashTruncate p)).length ≤ 72 := by
  unfold hashTruncate
  rw [if_pos h]
  have h2 := utf8DecodeIgnore_encode_length ((utf8Encode p).take 72)
  have h3 : ((utf8Encode p).take 72).length ≤ 72 := by
    rw [List.length_take]
    exact Nat.min_le_left _ _
  omega

theorem authTruncate_id_of_le (p : List Nat) (h : (utf8Encode p).length ≤ 72) :
    authTruncate p = p := by
  unfold authTruncate
  rw [if_neg (by omega)]

/-- C6: registration hashes the first 72 UTF-8 bytes of an over-long password
(decoded back ignoring a split trailing sequence), login applies the identical
truncation, and for every password of more than 72 UTF-8 bytes both the
identical password and its 72-byte truncation authenticate against the
freshly registered account. -/
theorem getUserByUsername_append_fresh (db : DB) (username : String)
    (nu : UserRec)
    (hn : ¬ ((db.users.filter (fun u => u.username == username)).head?).isSome)
    (hnu : nu.username = username) :
    getUserByUsername { db with users := db.users ++ [nu] } username = some nu := by
  unfold getUserByUsername
  have hfilnil : db.users.filter (fun u => u.username == username) = [] := by
    cases hls : db.users.filter (fun u => u.username == username) with
    | nil => rfl
    | cons a l =>
      rw [hls] at hn
      simp at hn
  show ((db.users ++ [nu]).filter (fun u => u.username == username)).head? = some nu
  rw [List.filter_append, hfilnil]
  simp [hnu]

/-- C6: registration hashes the first 72 UTF-8 bytes of an over-long password
(decoded back ignoring a split trailing sequence), login applies the identical
truncation, and for every password of more than 72 UTF-8 bytes both the
identical password and its 72-byte truncation authenticate against the
freshly registered account. -/
theorem c6_password_truncation (hashFn : List Nat → List Nat) (db : DB)
    (newId : Nat) (email username : String) (p : List Nat) (db' : DB)
    (hreg : registerUser hashFn db newId email username p = .ok db')
    (hlong : 72 < (utf8Encode p).length) :
    (∀ q, authTruncate q = hashTruncate q) ∧
    (∃ user, getUserByUsername db' username = some user ∧
      user.hashed_password = hashFn (utf8DecodeIgnore ((utf8Encode p).take 72)) ∧
      user.is_active = true ∧
      authenticateUser hashFn db' username p = some user ∧
      authenticateUser hashFn db' username (hashTruncate p) = some user) := by
  unfold registerUser at hreg
  by_cases he : ((db.users.filter (fun u => u.email == email)).head?).isSome
  · rw [if_pos he] at hreg
    cases hreg
  · rw [if_neg he] at hreg
    by_cases hn : ((db.users.filter (fun u => u.username == username)).head?).isSome
    · rw [if_pos hn] at hreg
      cases hreg
    · rw [if_neg hn] at hreg
      injection hreg with hdb
      subst hdb
      have hfind := getUserByUsername_append_fresh db username
        { id := newId, email := email, username := username,
          hashed_password := getPasswordHash hashFn p, is_active := true } hn rfl
      refine ⟨fun q => rfl, _, hfind, ?_, rfl, ?_, ?_⟩
      · show getPasswordHash hashFn p =
          hashFn (utf8DecodeIgnore ((utf8Encode p).take 72))
        unfold getPasswordHash hashTruncate
        rw [if_pos hlong]
      · unfold authenticateUser
        rw [hfind]
        have hv : (hashFn (authTruncate p) == getPasswordHash hashFn p) = true := by
          unfold getPasswordHash
          exact beq_self_eq_true _
        simp [verifyPassword, hv]
      · unfold authenticateUser
        rw [hfind]
        have hle : (utf8Encode (hashTruncate p)).length ≤ 72 :=
          hashTruncate_encode_le p hlong
        have hv : (hashFn (authTruncate (hashTruncate p)) ==
            getPasswordHash hashFn p) = true := by
          rw [authTruncate_id_of_le _ hle]
          unfold getPasswordHash
          exact beq_self_eq_true _
        simp [verifyPassword, hv]

/-- A 73-character ASCII password: 73 UTF-8 bytes, one over the limit. -/
def pLong : List Nat := List.replicate 73 97

def dbEmpty : DB := { urls := [], users := [], clicks := [] }

def dbReg : DB :=
  { urls := []
    users := [{ id := 1, email := "alice@example.com", username := "alice73",
                hashed_password := getPasswordHash id pLong, is_active := true }]
    clicks := [] }

theorem c6_password_truncation_witness :
    (registerUser id dbEmpty 1 "alice@example.com" "alice73" pLong = .ok dbReg ∧
      72 < (utf8Encode pLong).length) ∧
    ((∀ q, authTruncate q = hashTruncate q) ∧
      (∃ user, getUserByUsername dbReg "alice73" = some user ∧
        user.hashed_password = id (utf8DecodeIgnore ((utf8Encode pLong).take 72)) ∧
        user.is_active = true ∧
        authenticateUser id dbReg "alice73" pLong = some user ∧
        authenticateUser id dbReg "alice73" (hashTruncate pLong) = some user)) :=
  ⟨⟨rfl, by decide⟩,
   c6_password_truncation id dbEmpty 1 "alice@example.com" "alice73" pLong dbReg
     rfl (by decide)⟩

end ShortUrl
